import Mathlib

/-!
Shallow embedding of the content-based recommendation engine
(`src/model-service/app/main.py`, class `ContentBasedRecommender`) and of the
SM-2 spaced-repetition scheduler (`src/app/models/flashcard.py`,
`Flashcard.calculate_next_review` and friends), together with the request
validation of the review endpoint
(`src/app/api/study_sessions.py`, `FlashcardReviewRequest`).

Modelling conventions:
- Python floats are modelled as `ℚ` where the code only adds, multiplies and
  compares (flashcard ease factors, ratings), and as `ℝ` where the code takes
  square roots (z-score standardisation, cosine similarity).
- Python `int()` truncation toward zero is `truncTowardZero`.
- `datetime` values are modelled as integers counted in days; adding
  `timedelta(days=n)` is integer addition.
- Python's `sorted(..., reverse=True)` / `list.sort(..., reverse=True)` is a
  stable sort with respect to the reversed key comparison; it is modelled by
  `List.insertionSort` with the corresponding total preorder, which computes
  the same (unique) stable arrangement.
- `list(set(...))` iterates a Python set whose order is unspecified; it is
  modelled as first-seen-order deduplication.  None of the verified claims
  depends on that order.
-/

namespace PlayStudy

/-- Mirror of the `GameFeature` pydantic model of `model-service/app/main.py`. -/
structure GameFeature where
  id : ℤ
  category : String
  difficulty : String
  estimated_time : ℤ
  xp_reward : ℤ
  rating : ℚ
  likes : ℤ
  title : String
deriving DecidableEq, Inhabited

/-- Mirror of the `UserPlayHistory` pydantic model of `model-service/app/main.py`. -/
structure UserPlayHistory where
  game_id : ℤ
  play_count : ℤ
deriving DecidableEq, Inhabited

/-- Python `int()` on a rational: truncation toward zero. -/
def truncTowardZero (q : ℚ) : ℤ :=
  if q < 0 then -⌊-q⌋ else ⌊q⌋

/-- Python `max(a, b)`: returns `b` exactly when `b` is strictly larger. -/
def pyMax (a b : ℚ) : ℚ := if a < b then b else a

/-- Python `str.lower()` (ASCII case folding, which covers the difficulty
labels); written as a character map so it evaluates by reduction. -/
def pyLower (s : String) : String := ⟨s.data.map Char.toLower⟩

/-- `self.difficulty_map.get(game.difficulty.lower(), 2)` with
`difficulty_map = ('easy': 1, 'medium': 2, 'hard': 3)`. -/
def difficultyOrdinal (d : String) : ℚ :=
  if pyLower d = "easy" then 1
  else if pyLower d = "medium" then 2
  else if pyLower d = "hard" then 3
  else 2

/-- `categories = list(set(g.category for g in games))` (first-seen order;
the Python set order is unspecified, and no claim depends on it). -/
def uniqueCategories (games : List GameFeature) : List String :=
  (games.map (fun g => g.category)).foldl
    (fun acc c => if c ∈ acc then acc else acc ++ [c]) []

/-- `category_map.get(game.category, 0)` where
`category_map = (cat: i for i, cat in enumerate(categories))`. -/
def categoryIndex (cats : List String) (c : String) : ℕ :=
  (cats.indexOf? c).getD 0

/-- One raw feature row built inside `create_feature_vectors`:
`[difficulty, estimated_time, xp_reward, rating, likes, category_index]`.
Note the category contributes a single index column, not a one-hot block. -/
def rawFeatures (cats : List String) (g : GameFeature) : List ℚ :=
  [difficultyOrdinal g.difficulty, (g.estimated_time : ℚ), (g.xp_reward : ℚ),
    g.rating, (g.likes : ℚ), ((categoryIndex cats g.category : ℕ) : ℚ)]

/-- Column `j` of a row-major matrix (all rows have equal length here). -/
def column (rows : List (List ℚ)) (j : ℕ) : List ℚ :=
  rows.map (fun r => r.getD j 0)

/-- Mean of a column, as computed by `StandardScaler`. -/
def colMean (xs : List ℚ) : ℚ := xs.sum / xs.length

/-- Population variance of a column (`StandardScaler` uses `ddof = 0`). -/
def colVar (xs : List ℚ) : ℚ :=
  ((xs.map (fun x => (x - colMean xs) ^ 2)).sum) / xs.length

/-- The divisor used by `StandardScaler`: the standard deviation, except that
zero scales are replaced by 1 (`_handle_zeros_in_scale`), so a zero-variance
column standardises to all zeros instead of dividing by zero. -/
noncomputable def colScale (xs : List ℚ) : ℝ :=
  if colVar xs = 0 then 1 else Real.sqrt ((colVar xs : ℝ))

/-- `self.scaler.fit_transform(np.array(features))`: z-score standardisation,
column statistics computed over the input rows. -/
noncomputable def standardize (rows : List (List ℚ)) : List (List ℝ) :=
  rows.map (fun r =>
    r.mapIdx (fun j x => ((x : ℝ) - (colMean (column rows j) : ℝ)) / colScale (column rows j)))

/-- `ContentBasedRecommender.create_feature_vectors`: returns the standardised
feature matrix together with the category universe of the pool. -/
noncomputable def create_feature_vectors (games : List GameFeature) :
    List (List ℝ) × List String :=
  let cats := uniqueCategories games
  (standardize (games.map (rawFeatures cats)), cats)

/-- `ContentBasedRecommender.get_favorite_games`: ids with
`play_count >= min_plays`, else the first three history entries. -/
def get_favorite_games (ph : List UserPlayHistory) (minPlays : ℤ) : List ℤ :=
  let favorites := (ph.filter (fun p => decide (minPlays ≤ p.play_count))).map
    (fun p => p.game_id)
  if favorites = [] then (ph.take 3).map (fun p => p.game_id) else favorites

/-- `played_game_ids = [ph.game_id for ph in play_history]`. -/
def playedIds (ph : List UserPlayHistory) : List ℤ :=
  ph.map (fun p => p.game_id)

/-- `game_id_to_idx = (g.id: i for i, g in enumerate(all_games))` followed by a
lookup: the dict keeps the LAST index for a duplicated id. -/
def gameIdToIdx (games : List GameFeature) (gid : ℤ) : Option ℕ :=
  ((List.range games.length).filter
    (fun i => decide ((games.getD i default).id = gid))).getLast?

/-- `favorite_indices = [game_id_to_idx[gid] for gid in favorite_game_ids if gid in game_id_to_idx]`,
with `favorite_game_ids = get_favorite_games(play_history)` (default `min_plays = 2`). -/
def favoriteIndices (ph : List UserPlayHistory) (games : List GameFeature) : List ℕ :=
  (get_favorite_games ph 2).filterMap (gameIdToIdx games)

/-- `np.mean(favorite_vectors, axis=0)`: element-wise mean of a non-empty list
of equal-length rows. -/
noncomputable def avgVector (vs : List (List ℝ)) : List ℝ :=
  (List.range vs.headI.length).map
    (fun j => ((vs.map (fun v => v.getD j 0)).sum) / (vs.length : ℝ))

/-- Dot product of two rows. -/
def dotProd (u v : List ℝ) : ℝ := (List.zipWith (fun a b => a * b) u v).sum

/-- Euclidean norm of a row. -/
noncomputable def vecNorm (u : List ℝ) : ℝ :=
  Real.sqrt ((u.map (fun x => x * x)).sum)

/-- `sklearn.metrics.pairwise.cosine_similarity` on two rows: each row is
divided by its norm, with zero norms replaced by 1, so a zero vector scores
0.0 against anything instead of raising. -/
noncomputable def cosineSim (u v : List ℝ) : ℝ :=
  dotProd u v /
    ((if vecNorm u = 0 then 1 else vecNorm u) * (if vecNorm v = 0 then 1 else vecNorm v))

/-- `ContentBasedRecommender._explain_recommendation`. -/
def explain_recommendation (g fav : GameFeature) : String :=
  let reasons :=
    (if g.category = fav.category then ["same category: " ++ g.category] else []) ++
    (if g.difficulty = fav.difficulty then ["same difficulty: " ++ g.difficulty] else [])
  if reasons = [] then "Similar to " ++ fav.title
  else "Similar to " ++ fav.title ++ " (" ++ String.intercalate ", " reasons ++ ")"

/-- The key preorder of `sorted(all_games, key=lambda g: (g.rating, g.likes), reverse=True)`:
`a` may precede `b` iff `(a.rating, a.likes)` is lexicographically ≥
`(b.rating, b.likes)`.  Python's sort is stable, as is `List.insertionSort`. -/
def popGe (a b : GameFeature) : Prop :=
  b.rating < a.rating ∨ (a.rating = b.rating ∧ b.likes ≤ a.likes)

instance : DecidableRel popGe := fun a b => by unfold popGe; infer_instance

instance : IsTotal GameFeature popGe where
  total a b := by
    unfold popGe
    rcases lt_trichotomy a.rating b.rating with h | h | h
    · rcases le_total a.likes b.likes with hl | hl
      · exact Or.inr (Or.inl h)
      · exact Or.inr (Or.inl h)
    · rcases le_total a.likes b.likes with hl | hl
      · exact Or.inr (Or.inr ⟨h.symm, hl⟩)
      · exact Or.inl (Or.inr ⟨h, hl⟩)
    · exact Or.inl (Or.inl h)

instance : IsTrans GameFeature popGe where
  trans a b c hab hbc := by
    unfold popGe at *
    rcases hab with h1 | ⟨h1, h1l⟩
    · rcases hbc with h2 | ⟨h2, _⟩
      · exact Or.inl (h2.trans h1)
      · exact Or.inl (h2 ▸ h1)
    · rcases hbc with h2 | ⟨h2, h2l⟩
      · exact Or.inl (h1 ▸ h2)
      · exact Or.inr ⟨h1.trans h2, h2l.trans h1l⟩

/-- An entry of the `recommendations` list: `(game_id, score, explanation)`. -/
abbrev RecEntry := ℤ × ℝ × String

/-- The key preorder of `recommendations.sort(key=lambda x: x['score'], reverse=True)`. -/
def scoreGe (a b : RecEntry) : Prop := b.2.1 ≤ a.2.1

noncomputable instance : DecidableRel scoreGe := fun a b => Real.decidableLE _ _

instance : IsTotal RecEntry scoreGe where
  total a b := le_total b.2.1 a.2.1

instance : IsTrans RecEntry scoreGe where
  trans _ _ _ hab hbc := le_trans hbc hab

/-- `sorted_games = sorted(all_games, key=lambda g: (g.rating, g.likes), reverse=True)`. -/
def popularSorted (games : List GameFeature) : List GameFeature :=
  List.insertionSort popGe games

/-- `unplayed = [g for g in sorted_games if g.id not in played_game_ids]`. -/
def unplayedPopular (ph : List UserPlayHistory) (games : List GameFeature) :
    List GameFeature :=
  (popularSorted games).filter (fun g => decide (g.id ∉ playedIds ph))

/-- `ContentBasedRecommender.recommend`: returns the parallel lists
`(game_ids, scores, explanations)` exactly as the source builds them. -/
noncomputable def recommend (ph : List UserPlayHistory) (games : List GameFeature)
    (limit : ℕ) : List ℤ × List ℝ × List String :=
  if ph = [] ∨ games.length < 2 then
    (((popularSorted games).take limit).map (fun g => g.id),
      List.replicate limit (0 : ℝ), List.replicate limit "Popular game")
  else
    let M := (create_feature_vectors games).1
    let played := playedIds ph
    let favIdx := favoriteIndices ph games
    if favIdx = [] then
      (((unplayedPopular ph games).take limit).map (fun g => g.id),
        List.replicate limit (0 : ℝ), List.replicate limit "Popular game")
    else
      let favoriteGame := games.getD favIdx.headI default
      let avg := avgVector (favIdx.map (fun i => M.getD i []))
      let sims := M.map (fun row => cosineSim avg row)
      let recs := ((games.zip sims).filter (fun p => decide (p.1.id ∉ played))).map
        (fun p => ((p.1.id, p.2, explain_recommendation p.1 favoriteGame) : RecEntry))
      let top := (List.insertionSort scoreGe recs).take limit
      (top.map (fun r => r.1), top.map (fun r => r.2.1), top.map (fun r => r.2.2))

/-- The candidate set after exclusion: the pool items whose id is not among
the played ids, in pool order. -/
def unplayedGames (ph : List UserPlayHistory) (games : List GameFeature) :
    List GameFeature :=
  games.filter (fun g => decide (g.id ∉ playedIds ph))

/-- The `recommendations` list the similarity path builds before sorting
(`main.py` lines 168-181): one `(game_id, score, explanation)` entry per
unplayed pool item, in pool order.  Identical to the list built inside
`recommend`. -/
noncomputable def similarityCandidates (ph : List UserPlayHistory)
    (games : List GameFeature) : List RecEntry :=
  let M := (create_feature_vectors games).1
  let played := playedIds ph
  let favIdx := favoriteIndices ph games
  let favoriteGame := games.getD favIdx.headI default
  let avg := avgVector (favIdx.map (fun i => M.getD i []))
  let sims := M.map (fun row => cosineSim avg row)
  ((games.zip sims).filter (fun p => decide (p.1.id ∉ played))).map
    (fun p => ((p.1.id, p.2, explain_recommendation p.1 favoriteGame) : RecEntry))

end PlayStudy

namespace PlayStudy

/-- Scheduling state of `app/models/flashcard.py`'s `Flashcard` (the static
content fields are irrelevant to the scheduler and omitted). -/
structure Flashcard where
  ease_factor : ℚ
  interval_days : ℤ
  repetitions : ℤ
  next_review_date : Option ℤ
  last_reviewed_at : Option ℤ
  total_reviews : ℤ
  correct_reviews : ℤ
deriving DecidableEq, Inhabited

/-- A freshly created flashcard (column defaults of the model). -/
def freshCard : Flashcard :=
  { ease_factor := 5 / 2, interval_days := 1, repetitions := 0,
    next_review_date := none, last_reviewed_at := none,
    total_reviews := 0, correct_reviews := 0 }

/-- `Flashcard.calculate_next_review(quality)`.  `now` stands for the value of
`datetime.utcnow()` during the call, counted in days. -/
def calculate_next_review (c : Flashcard) (quality : ℤ) (now : ℤ) : Flashcard :=
  let c1 : Flashcard :=
    { c with total_reviews := c.total_reviews + 1, last_reviewed_at := some now }
  let c2 : Flashcard :=
    if 3 ≤ quality then
      { c1 with
        correct_reviews := c1.correct_reviews + 1,
        repetitions := c1.repetitions + 1,
        ease_factor := pyMax (13 / 10)
          (c1.ease_factor +
            ((1 : ℚ) / 10 - ((5 : ℚ) - quality) * ((8 : ℚ) / 100 + ((5 : ℚ) - quality) * ((2 : ℚ) / 100)))) }
    else
      { c1 with repetitions := 0, interval_days := 1 }
  let c3 : Flashcard :=
    if c2.repetitions = 0 then { c2 with interval_days := 1 }
    else if c2.repetitions = 1 then { c2 with interval_days := 6 }
    else { c2 with interval_days := truncTowardZero ((c2.interval_days : ℚ) * c2.ease_factor) }
  { c3 with next_review_date := some (now + c3.interval_days) }

/-- `Flashcard.is_due_for_review`. -/
def is_due_for_review (c : Flashcard) (now : ℤ) : Bool :=
  match c.next_review_date with
  | none => true
  | some d => decide (d ≤ now)

/-- `Flashcard.get_accuracy`. -/
def get_accuracy (c : Flashcard) : ℚ :=
  if c.total_reviews = 0 then 0
  else ((c.correct_reviews : ℚ) / (c.total_reviews : ℚ)) * 100

/-- Error raised when the review endpoint rejects a request. -/
inductive ReviewError where
  | invalidArgument
deriving DecidableEq

/-- The review pipeline of `POST /flashcards/(id)/review`: the
`FlashcardReviewRequest` schema constrains `quality` with
`Field(..., ge=0, le=5)`, so out-of-range qualities are rejected before
`calculate_next_review` runs and the card is left untouched. -/
def submit_flashcard_review (c : Flashcard) (quality : ℤ) (now : ℤ) :
    Except ReviewError Flashcard :=
  if 0 ≤ quality ∧ quality ≤ 5 then Except.ok (calculate_next_review c quality now)
  else Except.error ReviewError.invalidArgument

end PlayStudy

namespace PlayStudy

/-- The card state after two quality-5 reviews of a fresh card:
ease 2.7, interval 16, repetitions 2. -/
def cardAfter55 : Flashcard :=
  calculate_next_review (calculate_next_review freshCard 5 0) 5 0

/-- Modelled from the spec: the ordering the TasteProfileBuilder claim
describes for the fallback — play_count descending with ties broken by
item_id ascending (the `UserPlayHistory` wire format carries no recency
field).  Used only to compare the claimed behaviour against the code. -/
def phGe (a b : UserPlayHistory) : Prop :=
  b.play_count < a.play_count ∨ (a.play_count = b.play_count ∧ a.game_id ≤ b.game_id)

instance : DecidableRel phGe := fun a b => by unfold phGe; infer_instance

/-- Modelled from the spec: the favorite list the claim describes when no
entry meets the threshold — the first `fallbackCount = 3` entries after
sorting by `phGe`. -/
def claimedFallbackFavorites (ph : List UserPlayHistory) : List ℤ :=
  ((List.insertionSort phGe ph).take 3).map (fun p => p.game_id)

end PlayStudy

namespace PlayStudy

/-! ## Scheduler theorems -/

/-- The first argument of `pyMax` is a lower bound of its result. -/
theorem pyMax_left_le (a b : ℚ) : a ≤ pyMax a b := by
  unfold pyMax
  split_ifs with h
  · exact le_of_lt h
  · exact le_refl a

/-- The 1.3 floor survives one review of any quality. -/
theorem ease_factor_step (c : Flashcard) (q now : ℤ) (hc : 13 / 10 ≤ c.ease_factor) :
    13 / 10 ≤ (calculate_next_review c q now).ease_factor := by
  unfold calculate_next_review
  by_cases h1 : 3 ≤ q
  · simp only [if_pos h1]
    split_ifs <;> exact pyMax_left_le _ _
  · simp only [if_neg h1]
    split_ifs <;> exact hc

/-- A failing review does not touch the ease factor. -/
theorem ease_factor_fail (c : Flashcard) (q now : ℤ) (hq : q < 3) :
    (calculate_next_review c q now).ease_factor = c.ease_factor := by
  have h1 : ¬ (3 ≤ q) := by omega
  unfold calculate_next_review
  simp only [if_neg h1]
  split_ifs <;> rfl

end PlayStudy

namespace PlayStudy

/-- Claim C5: starting from any card whose ease factor is at least 1.3 (a fresh
card starts at 2.5), no sequence of reviews with qualities in [0,5] ever brings
`ease_factor` below 1.3; the 1.3 floor is enforced on every passing update and
a failing review leaves the ease factor unchanged. -/
theorem ease_factor_never_below_floor (c : Flashcard) (hc : 13 / 10 ≤ c.ease_factor)
    (qs : List (ℤ × ℤ)) (hqs : ∀ p ∈ qs, 0 ≤ p.1 ∧ p.1 ≤ 5) :
    13 / 10 ≤ (qs.foldl (fun a p => calculate_next_review a p.1 p.2) c).ease_factor ∧
    (∀ q now : ℤ, 3 ≤ q → 13 / 10 ≤ (calculate_next_review c q now).ease_factor) ∧
    (∀ q now : ℤ, q < 3 → (calculate_next_review c q now).ease_factor = c.ease_factor) := by
  refine ⟨?_, fun q now _ => ease_factor_step c q now hc,
    fun q now hq => ease_factor_fail c q now hq⟩
  induction qs generalizing c with
  | nil => exact hc
  | cons p ps ih =>
    exact ih (calculate_next_review c p.1 p.2) (ease_factor_step c p.1 p.2 hc)
      (fun r hr => hqs r (List.mem_cons_of_mem p hr))

/-- Witness for C5: a fresh card reviewed with qualities 5, 0, 3. -/
theorem ease_factor_never_below_floor_witness :
    (13 / 10 ≤ freshCard.ease_factor ∧
      (∀ p ∈ ([(5, 0), (0, 1), (3, 2)] : List (ℤ × ℤ)), 0 ≤ p.1 ∧ p.1 ≤ 5)) ∧
    13 / 10 ≤ ((([(5, 0), (0, 1), (3, 2)] : List (ℤ × ℤ)).foldl
      (fun a p => calculate_next_review a p.1 p.2) freshCard).ease_factor) := by
  have h1 : 13 / 10 ≤ freshCard.ease_factor := by norm_num [freshCard]
  have h2 : ∀ p ∈ ([(5, 0), (0, 1), (3, 2)] : List (ℤ × ℤ)), 0 ≤ p.1 ∧ p.1 ≤ 5 := by decide
  exact ⟨⟨h1, h2⟩, (ease_factor_never_below_floor freshCard h1 _ h2).1⟩

/-- Claim C6: a review with quality < 3 resets `repetitions` to 0 and
`interval_days` to 1, leaves `ease_factor` and `correct_reviews` unchanged,
increments `total_reviews`, stamps `last_reviewed_at`, and schedules the next
review one day after `now`. -/
theorem failed_review_resets (c : Flashcard) (q now : ℤ) (hq : q < 3) :
    (calculate_next_review c q now).repetitions = 0 ∧
    (calculate_next_review c q now).interval_days = 1 ∧
    (calculate_next_review c q now).ease_factor = c.ease_factor ∧
    (calculate_next_review c q now).correct_reviews = c.correct_reviews ∧
    (calculate_next_review c q now).total_reviews = c.total_reviews + 1 ∧
    (calculate_next_review c q now).last_reviewed_at = some now ∧
    (calculate_next_review c q now).next_review_date = some (now + 1) := by
  have h1 : ¬ (3 ≤ q) := by omega
  unfold calculate_next_review
  simp only [if_neg h1]
  exact ⟨rfl, rfl, rfl, rfl, rfl, rfl, rfl⟩

/-- Witness for C6: quality 0 in the middle of a streak. -/
theorem failed_review_resets_witness :
    ((0 : ℤ) < 3) ∧
    (calculate_next_review ⟨2, 16, 2, some 10, some 4, 5, 4⟩ 0 20).repetitions = 0 ∧
    (calculate_next_review ⟨2, 16, 2, some 10, some 4, 5, 4⟩ 0 20).interval_days = 1 ∧
    (calculate_next_review ⟨2, 16, 2, some 10, some 4, 5, 4⟩ 0 20).ease_factor = (2 : ℚ) ∧
    (calculate_next_review ⟨2, 16, 2, some 10, some 4, 5, 4⟩ 0 20).next_review_date = some 21 := by
  have h := failed_review_resets ⟨2, 16, 2, some 10, some 4, 5, 4⟩ 0 20 (by decide)
  exact ⟨by decide, h.1, h.2.1, h.2.2.1, h.2.2.2.2.2.2⟩

/-- Claim C9: the review pipeline rejects any quality outside [0,5] with
`InvalidArgument` before `calculate_next_review` runs, so no card field is
updated. -/
theorem review_rejects_out_of_range (c : Flashcard) (q now : ℤ)
    (hq : q < 0 ∨ 5 < q) :
    submit_flashcard_review c q now = Except.error ReviewError.invalidArgument := by
  have h1 : ¬ (0 ≤ q ∧ q ≤ 5) := by omega
  unfold submit_flashcard_review
  rw [if_neg h1]

/-- Witness for C9: quality 7 is rejected. -/
theorem review_rejects_out_of_range_witness :
    ((7 : ℤ) < 0 ∨ (5 : ℤ) < 7) ∧
    submit_flashcard_review freshCard 7 0 = Except.error ReviewError.invalidArgument :=
  ⟨by decide, review_rejects_out_of_range freshCard 7 0 (by decide)⟩

end PlayStudy

namespace PlayStudy

/-- Claim C2 (amended): on a passing review the updated interval is
`int(interval_days * ease_factor)` — truncation toward zero, not rounding —
using the ease factor just updated by the SM-2 formula; and the interval is 6
when the incremented repetition counter is 1. -/
theorem pass_interval_update (c : Flashcard) (q now : ℤ) (hq : 3 ≤ q)
    (hrep : 0 ≤ c.repetitions) :
    (calculate_next_review c q now).repetitions = c.repetitions + 1 ∧
    (c.repetitions = 0 → (calculate_next_review c q now).interval_days = 6) ∧
    (0 < c.repetitions → (calculate_next_review c q now).interval_days =
      truncTowardZero ((c.interval_days : ℚ) * (calculate_next_review c q now).ease_factor)) := by
  unfold calculate_next_review
  simp only [if_pos hq]
  split_ifs with h2 h3
  · exact absurd h2 (by omega)
  · exact ⟨rfl, fun _ => rfl, fun hlt => absurd h3 (by omega)⟩
  · exact ⟨rfl, fun h0 => absurd (by omega : c.repetitions + 1 = 1) h3, fun _ => rfl⟩

/-- Witness for the amended C2 at a concrete passing review. -/
theorem pass_interval_update_witness :
    ((3 : ℤ) ≤ 3 ∧ (0 : ℤ) ≤ (1 : ℤ)) ∧
    (calculate_next_review ⟨2, 6, 1, none, none, 1, 1⟩ 3 0).repetitions = 1 + 1 ∧
    ((0 : ℤ) < 1 → (calculate_next_review ⟨2, 6, 1, none, none, 1, 1⟩ 3 0).interval_days =
      truncTowardZero (((6 : ℤ) : ℚ) * (calculate_next_review ⟨2, 6, 1, none, none, 1, 1⟩ 3 0).ease_factor)) := by
  have h := pass_interval_update ⟨2, 6, 1, none, none, 1, 1⟩ 3 0 (by decide) (by decide)
  exact ⟨⟨by decide, by decide⟩, h.1, h.2.2⟩

/-- Counterexample to C2 as stated: after passing reviews 5, 5, 3 of a fresh
card the code truncates 16 × 2.56 = 40.96 down to 40, while rounding as the
claim states would give 41. -/
theorem pass_interval_rounds_cex :
    (calculate_next_review cardAfter55 3 0).repetitions = 3 ∧
    cardAfter55.interval_days = 16 ∧
    (calculate_next_review cardAfter55 3 0).ease_factor = 64 / 25 ∧
    (calculate_next_review cardAfter55 3 0).interval_days = 40 ∧
    round ((cardAfter55.interval_days : ℚ) * (calculate_next_review cardAfter55 3 0).ease_factor) = 41 ∧
    (calculate_next_review cardAfter55 3 0).interval_days ≠
      round ((cardAfter55.interval_days : ℚ) * (calculate_next_review cardAfter55 3 0).ease_factor) := by
  have e1 : cardAfter55 = ⟨27/10, 16, 2, some 16, some 0, 2, 2⟩ := by
    norm_num [cardAfter55, freshCard, calculate_next_review, pyMax, truncTowardZero]
  rw [e1]
  norm_num [calculate_next_review, pyMax, truncTowardZero, round_eq]

end PlayStudy

namespace PlayStudy

/-- Claim C8 (amended): when no history entry reaches `minPlays`, the fallback
takes the game ids of the FIRST three history entries in the order the history
was given (no re-sorting), and the result is non-empty whenever the history
is non-empty. -/
theorem fallback_favorites_first_three (ph : List UserPlayHistory) (minPlays : ℤ)
    (hne : ph ≠ []) (hnone : ∀ e ∈ ph, e.play_count < minPlays) :
    get_favorite_games ph minPlays = (ph.take 3).map (fun p => p.game_id) ∧
    get_favorite_games ph minPlays ≠ [] := by
  have hfilter : ph.filter (fun p => decide (minPlays ≤ p.play_count)) = [] := by
    rw [List.filter_eq_nil_iff]
    intro a ha
    simpa using not_le.mpr (hnone a ha)
  have hmain : get_favorite_games ph minPlays = (ph.take 3).map (fun p => p.game_id) := by
    unfold get_favorite_games
    rw [hfilter]
    simp
  refine ⟨hmain, ?_⟩
  rw [hmain]
  intro hemp
  rcases ph with _ | ⟨a, tl⟩
  · exact hne rfl
  · simp [List.take] at hemp

/-- Witness for the amended C8. -/
theorem fallback_favorites_first_three_witness :
    (([⟨9, 1⟩, ⟨5, 1⟩] : List UserPlayHistory) ≠ [] ∧
      (∀ e ∈ ([⟨9, 1⟩, ⟨5, 1⟩] : List UserPlayHistory), e.play_count < 2)) ∧
    get_favorite_games [⟨9, 1⟩, ⟨5, 1⟩] 2 = [9, 5] ∧
    get_favorite_games [⟨9, 1⟩, ⟨5, 1⟩] 2 ≠ [] := by
  have h := fallback_favorites_first_three [⟨9, 1⟩, ⟨5, 1⟩] 2 (by decide) (by decide)
  exact ⟨⟨by decide, by decide⟩, by rw [h.1]; decide, h.2⟩

/-- Counterexample to C8 as stated: with two once-played entries listed as
id 9 before id 5, the code keeps the input order [9, 5] while the claimed
ordering (play_count desc, ties by id asc) would give [5, 9]. -/
theorem fallback_favorites_not_sorted_cex :
    get_favorite_games [⟨9, 1⟩, ⟨5, 1⟩] 2 = [9, 5] ∧
    claimedFallbackFavorites [⟨9, 1⟩, ⟨5, 1⟩] = [5, 9] ∧
    get_favorite_games [⟨9, 1⟩, ⟨5, 1⟩] 2 ≠ claimedFallbackFavorites [⟨9, 1⟩, ⟨5, 1⟩] := by
  refine ⟨by decide, by decide, by decide⟩

end PlayStudy

namespace PlayStudy

/-- Claim C7 (amended): every feature vector produced by
`create_feature_vectors` has exactly 6 entries — the five numeric columns
followed by a SINGLE category-index column — regardless of how many distinct
categories the pool has; the matrix has one row per item. -/
theorem feature_matrix_width (games : List GameFeature) :
    ((create_feature_vectors games).1).length = games.length ∧
    ∀ row ∈ (create_feature_vectors games).1, row.length = 6 := by
  constructor
  · simp [create_feature_vectors, standardize]
  · intro row hrow
    simp only [create_feature_vectors, standardize, List.map_map, List.mem_map] at hrow
    obtain ⟨g, _, hg⟩ := hrow
    rw [← hg]
    simp [List.length_mapIdx, rawFeatures]

/-- Counterexample to C7 as stated: a pool with two distinct categories still
yields rows of width 6, not 5 + 2 = 7 — the category is encoded as one index
column, not one-hot. -/
theorem feature_matrix_width_cex :
    ((create_feature_vectors
        [⟨1, "Math", "medium", 15, 50, 4, 100, "A"⟩,
         ⟨2, "Science", "hard", 20, 70, 5, 80, "B"⟩]).1).map List.length = [6, 6] ∧
    (uniqueCategories
        [⟨1, "Math", "medium", 15, 50, 4, 100, "A"⟩,
         ⟨2, "Science", "hard", 20, 70, 5, 80, "B"⟩]).length = 2 ∧
    (6 : ℕ) ≠ 5 + 2 := by
  refine ⟨?_, by decide, by decide⟩
  simp [create_feature_vectors, standardize, List.length_mapIdx, rawFeatures]

end PlayStudy

namespace PlayStudy

/-- The favorite-selection fallback guarantees a non-empty result on a
non-empty history, so an empty favorite set means an empty history. -/
theorem get_favorite_games_eq_nil (ph : List UserPlayHistory) (minPlays : ℤ)
    (h : get_favorite_games ph minPlays = []) : ph = [] := by
  unfold get_favorite_games at h
  by_cases hf : (ph.filter (fun p => decide (minPlays ≤ p.play_count))).map
      (fun p => p.game_id) = []
  · rw [if_pos hf] at h
    have h3 : ph.take 3 = [] := List.map_eq_nil_iff.mp h
    rcases List.take_eq_nil_iff.mp h3 with h0 | h0
    · exact absurd h0 (by decide)
    · exact h0
  · rw [if_neg hf] at h
    exact absurd h hf

/-- Claim C3: when the favorite set is empty (equivalently, the history is
empty) or the pool has fewer than 2 items, `recommend` skips similarity
scoring and returns the ids of the top `limit` pool items under the stable
descending `(rating, likes)` order, with score 0.0 and explanation
"Popular game" for every slot; the output is a pure function of the pool and
limit, hence reproducible. -/
theorem cold_start_popularity (ph : List UserPlayHistory) (games : List GameFeature)
    (limit : ℕ) (h : get_favorite_games ph 2 = [] ∨ games.length < 2) :
    (recommend ph games limit).1 = ((popularSorted games).take limit).map (fun g => g.id) ∧
    (recommend ph games limit).2.1 = List.replicate limit (0 : ℝ) ∧
    (recommend ph games limit).2.2 = List.replicate limit "Popular game" ∧
    (popularSorted games).Pairwise
      (fun a b => b.rating < a.rating ∨ (a.rating = b.rating ∧ b.likes ≤ a.likes)) ∧
    (popularSorted games).Perm games := by
  have hcond : ph = [] ∨ games.length < 2 := by
    rcases h with h | h
    · exact Or.inl (get_favorite_games_eq_nil ph 2 h)
    · exact Or.inr h
  unfold recommend
  rw [if_pos hcond]
  exact ⟨rfl, rfl, rfl, List.sorted_insertionSort popGe games,
    List.perm_insertionSort popGe games⟩

/-- Witness for C3: an empty history over a two-game pool. -/
theorem cold_start_popularity_witness :
    (get_favorite_games [] 2 = [] ∨
        ([⟨1, "Math", "medium", 15, 50, 5, 100, "A"⟩,
          ⟨2, "Science", "hard", 20, 70, 4, 80, "B"⟩] : List GameFeature).length < 2) ∧
    (recommend [] [⟨1, "Math", "medium", 15, 50, 5, 100, "A"⟩,
        ⟨2, "Science", "hard", 20, 70, 4, 80, "B"⟩] 2).1 =
      ((popularSorted [⟨1, "Math", "medium", 15, 50, 5, 100, "A"⟩,
        ⟨2, "Science", "hard", 20, 70, 4, 80, "B"⟩]).take 2).map (fun g => g.id) ∧
    (recommend [] [⟨1, "Math", "medium", 15, 50, 5, 100, "A"⟩,
        ⟨2, "Science", "hard", 20, 70, 4, 80, "B"⟩] 2).2.1 = List.replicate 2 (0 : ℝ) := by
  have h := cold_start_popularity [] [⟨1, "Math", "medium", 15, 50, 5, 100, "A"⟩,
    ⟨2, "Science", "hard", 20, 70, 4, 80, "B"⟩] 2 (Or.inl (by decide))
  exact ⟨Or.inl (by decide), h.1, h.2.1⟩

end PlayStudy

namespace PlayStudy

/-- Claim C10: on both popularity-fallback branches the scores and
explanations lists are built as `[0.0] * limit` and `["Popular game"] * limit`
while `game_ids` is truncated to the available candidates, so when fewer than
`limit` candidates exist the three parallel lists differ in length. -/
theorem fallback_list_length_mismatch (ph : List UserPlayHistory)
    (games : List GameFeature) (limit : ℕ) :
    ((ph = [] ∨ games.length < 2) → games.length < limit →
      (recommend ph games limit).2.1.length = limit ∧
      (recommend ph games limit).2.2.length = limit ∧
      (recommend ph games limit).1.length = games.length ∧
      (recommend ph games limit).1.length < limit) ∧
    (¬(ph = [] ∨ games.length < 2) → favoriteIndices ph games = [] →
      (unplayedPopular ph games).length < limit →
      (recommend ph games limit).2.1.length = limit ∧
      (recommend ph games limit).2.2.length = limit ∧
      (recommend ph games limit).1.length = (unplayedPopular ph games).length ∧
      (recommend ph games limit).1.length < limit) := by
  have hpop : (popularSorted games).length = games.length :=
    (List.perm_insertionSort popGe games).length_eq
  constructor
  · intro hcond hlt
    unfold recommend
    rw [if_pos hcond]
    refine ⟨List.length_replicate _ _, List.length_replicate _ _, ?_, ?_⟩
    · rw [List.length_map, List.length_take, hpop]
      exact Nat.min_eq_right (Nat.le_of_lt hlt)
    · rw [List.length_map, List.length_take, hpop]
      exact lt_of_le_of_lt (Nat.min_le_right _ _) hlt
  · intro hcond hfav hlt
    unfold recommend
    rw [if_neg hcond]
    simp only [hfav, ite_true]
    refine ⟨List.length_replicate _ _, List.length_replicate _ _, ?_, ?_⟩
    · rw [List.length_map, List.length_take]
      exact Nat.min_eq_right (Nat.le_of_lt hlt)
    · rw [List.length_map, List.length_take]
      exact lt_of_le_of_lt (Nat.min_le_right _ _) hlt

end PlayStudy

namespace PlayStudy

/-- Witness for C10: a one-game pool with limit 2 (cold branch), and a
two-game pool whose history names an id absent from the pool with limit 3
(no-favorite-in-pool branch). -/
theorem fallback_list_length_mismatch_witness :
    ((([] : List UserPlayHistory) = [] ∨
        ([⟨1, "Math", "medium", 15, 50, 4, 100, "A"⟩] : List GameFeature).length < 2) ∧
      ([⟨1, "Math", "medium", 15, 50, 4, 100, "A"⟩] : List GameFeature).length < 2 ∧
      (recommend [] [⟨1, "Math", "medium", 15, 50, 4, 100, "A"⟩] 2).2.1.length = 2 ∧
      (recommend [] [⟨1, "Math", "medium", 15, 50, 4, 100, "A"⟩] 2).1.length < 2) ∧
    (¬(([⟨99, 1⟩] : List UserPlayHistory) = [] ∨
        ([⟨1, "Math", "medium", 15, 50, 4, 100, "A"⟩,
          ⟨2, "Science", "hard", 20, 70, 5, 80, "B"⟩] : List GameFeature).length < 2) ∧
      favoriteIndices [⟨99, 1⟩]
        [⟨1, "Math", "medium", 15, 50, 4, 100, "A"⟩,
         ⟨2, "Science", "hard", 20, 70, 5, 80, "B"⟩] = [] ∧
      (unplayedPopular [⟨99, 1⟩]
        [⟨1, "Math", "medium", 15, 50, 4, 100, "A"⟩,
         ⟨2, "Science", "hard", 20, 70, 5, 80, "B"⟩]).length < 3 ∧
      (recommend [⟨99, 1⟩]
        [⟨1, "Math", "medium", 15, 50, 4, 100, "A"⟩,
         ⟨2, "Science", "hard", 20, 70, 5, 80, "B"⟩] 3).2.1.length = 3 ∧
      (recommend [⟨99, 1⟩]
        [⟨1, "Math", "medium", 15, 50, 4, 100, "A"⟩,
         ⟨2, "Science", "hard", 20, 70, 5, 80, "B"⟩] 3).1.length < 3) := by
  have hA := (fallback_list_length_mismatch []
    [⟨1, "Math", "medium", 15, 50, 4, 100, "A"⟩] 2).1 (Or.inl rfl) (by decide)
  have hB := (fallback_list_length_mismatch [⟨99, 1⟩]
    [⟨1, "Math", "medium", 15, 50, 4, 100, "A"⟩,
     ⟨2, "Science", "hard", 20, 70, 5, 80, "B"⟩] 3).2 (by decide) (by decide) (by decide)
  exact ⟨⟨Or.inl rfl, by decide, hA.1, hA.2.2.2⟩,
    ⟨by decide, by decide, by decide, hB.1, hB.2.2.2⟩⟩

end PlayStudy

namespace PlayStudy

/-- The standardised feature matrix has one row per pool item. -/
theorem create_feature_vectors_fst_length (games : List GameFeature) :
    ((create_feature_vectors games).1).length = games.length := by
  simp [create_feature_vectors, standardize]

/-- Filtering a zip by a predicate on the first component and projecting the
first components back gives the filter of the first list, provided the second
list is at least as long. -/
theorem filter_zip_map_fst {α : Type _} {β : Type _} (q : α → Bool) :
    ∀ (l : List α) (l' : List β), l.length ≤ l'.length →
      ((l.zip l').filter (fun p => q p.1)).map (fun p => p.1) = l.filter q := by
  intro l
  induction l with
  | nil => intro l' _; rfl
  | cons a as ih =>
    intro l' hlen
    cases l' with
    | nil => simp at hlen
    | cons b bs =>
      have hlen2 : as.length ≤ bs.length := by simpa using hlen
      by_cases hq : q a = true
      · simp [List.zip_cons_cons, List.filter_cons, hq, ih bs hlen2]
      · simp [List.zip_cons_cons, List.filter_cons, hq, ih bs hlen2]

/-- On the similarity path, `recommend` returns the three projections of the
`limit`-truncation of the score-sorted candidate list. -/
theorem recommend_similarity_eq (ph : List UserPlayHistory)
    (games : List GameFeature) (limit : ℕ)
    (hcond : ¬(ph = [] ∨ games.length < 2))
    (hfav : ¬(favoriteIndices ph games = [])) :
    recommend ph games limit =
      (((List.insertionSort scoreGe (similarityCandidates ph games)).take limit).map
          (fun r => r.1),
        ((List.insertionSort scoreGe (similarityCandidates ph games)).take limit).map
          (fun r => r.2.1),
        ((List.insertionSort scoreGe (similarityCandidates ph games)).take limit).map
          (fun r => r.2.2)) := by
  unfold recommend similarityCandidates
  rw [if_neg hcond]
  simp only [hfav, ite_false]

/-- The candidate entries carry exactly the unplayed pool ids, in pool order. -/
theorem similarityCandidates_map_fst (ph : List UserPlayHistory)
    (games : List GameFeature) :
    (similarityCandidates ph games).map (fun r => r.1) =
      (unplayedGames ph games).map (fun g => g.id) := by
  unfold similarityCandidates unplayedGames
  have hlen : games.length ≤
      (((create_feature_vectors games).1).map
        (fun row => cosineSim (avgVector ((favoriteIndices ph games).map
          (fun i => ((create_feature_vectors games).1).getD i []))) row)).length := by
    rw [List.length_map, create_feature_vectors_fst_length]
  rw [List.map_map,
    ← filter_zip_map_fst (fun g => decide (g.id ∉ playedIds ph)) games _ hlen,
    List.map_map]
  rfl

/-- There is one candidate entry per unplayed pool item. -/
theorem similarityCandidates_length (ph : List UserPlayHistory)
    (games : List GameFeature) :
    (similarityCandidates ph games).length = (unplayedGames ph games).length := by
  have h := congrArg List.length (similarityCandidates_map_fst ph games)
  simpa using h

/-- Every candidate entry names an unplayed id. -/
theorem similarityCandidates_not_played (ph : List UserPlayHistory)
    (games : List GameFeature) :
    ∀ r ∈ similarityCandidates ph games, r.1 ∉ playedIds ph := by
  intro r hr
  simp only [similarityCandidates, List.mem_map] at hr
  obtain ⟨p, hp, rfl⟩ := hr
  have := (List.mem_filter.mp hp).2
  simpa using this

/-- Claim C1 (amended): whenever the pool has at least 2 items, no game id
from the play history (the exclude set) appears in `recommend`'s output;
exclusion happens before truncation — the output length is `limit` capped by
the size of the candidate set AFTER exclusion — and when fewer than `limit`
candidates remain after exclusion the output is exactly those remaining (a
permutation of the unplayed pool ids, with no padding).  (The `< 2`-pool
fallback does not exclude played items — see the counterexample.) -/
theorem recommend_excludes_played (ph : List UserPlayHistory)
    (games : List GameFeature) (limit : ℕ) (h2 : 2 ≤ games.length) :
    (∀ gid ∈ (recommend ph games limit).1, gid ∉ playedIds ph) ∧
    (recommend ph games limit).1.length = min limit (unplayedGames ph games).length ∧
    ((unplayedGames ph games).length < limit →
      (recommend ph games limit).1.Perm
        ((unplayedGames ph games).map (fun g => g.id))) := by
  by_cases hph : ph = []
  · subst hph
    have hfe : unplayedGames [] games = games := by
      apply List.filter_eq_self.mpr
      intro a _
      simp [playedIds]
    have hlenpop : (popularSorted games).length = games.length :=
      (List.perm_insertionSort popGe games).length_eq
    unfold recommend
    rw [if_pos (Or.inl rfl)]
    refine ⟨?_, ?_, ?_⟩
    · intro gid _ hmem
      simp [playedIds] at hmem
    · rw [hfe, List.length_map, List.length_take, hlenpop]
    · intro hlt
      rw [hfe] at hlt ⊢
      rw [List.take_of_length_le (by rw [hlenpop]; exact le_of_lt hlt)]
      exact (List.perm_insertionSort popGe games).map (fun g => g.id)
  · have hcond : ¬(ph = [] ∨ games.length < 2) := by
      rintro (h | h)
      · exact hph h
      · exact absurd h2 (not_le.mpr h)
    by_cases hfav : favoriteIndices ph games = []
    · have hperm : (unplayedPopular ph games).Perm (unplayedGames ph games) :=
        (List.perm_insertionSort popGe games).filter _
      unfold recommend
      rw [if_neg hcond]
      simp only [hfav, ite_true]
      refine ⟨?_, ?_, ?_⟩
      · intro gid hmem
        simp only [List.mem_map] at hmem
        obtain ⟨g, hg, rfl⟩ := hmem
        have hmem2 : g ∈ unplayedPopular ph games := List.take_subset limit _ hg
        have := (List.mem_filter.mp hmem2).2
        simpa using this
      · rw [List.length_map, List.length_take, hperm.length_eq]
      · intro hlt
        rw [List.take_of_length_le (by rw [hperm.length_eq]; exact le_of_lt hlt)]
        exact hperm.map (fun g => g.id)
    · rw [recommend_similarity_eq ph games limit hcond hfav]
      have hsortlen : (List.insertionSort scoreGe (similarityCandidates ph games)).length
          = (unplayedGames ph games).length := by
        rw [(List.perm_insertionSort scoreGe _).length_eq,
          similarityCandidates_length ph games]
      refine ⟨?_, ?_, ?_⟩
      · intro gid hmem
        simp only [List.mem_map] at hmem
        obtain ⟨r, hr, rfl⟩ := hmem
        have hr2 := List.take_subset limit _ hr
        have hr3 := (List.perm_insertionSort scoreGe _).mem_iff.mp hr2
        exact similarityCandidates_not_played ph games r hr3
      · rw [List.length_map, List.length_take, hsortlen]
      · intro hlt
        rw [List.take_of_length_le (by rw [hsortlen]; exact le_of_lt hlt)]
        have hp := ((List.perm_insertionSort scoreGe
          (similarityCandidates ph games)).map (fun r => r.1))
        rw [similarityCandidates_map_fst ph games] at hp
        exact hp

/-- Witness for the amended C1: a played id 1 over a two-game pool, leaving a
single unplayed candidate (fewer than the limit of 6). -/
theorem recommend_excludes_played_witness :
    (2 ≤ ([⟨1, "Math", "medium", 15, 50, 4, 100, "A"⟩,
      ⟨2, "Science", "hard", 20, 70, 5, 80, "B"⟩] : List GameFeature).length ∧
      (unplayedGames [⟨1, 2⟩]
        [⟨1, "Math", "medium", 15, 50, 4, 100, "A"⟩,
         ⟨2, "Science", "hard", 20, 70, 5, 80, "B"⟩]).length < 6) ∧
    (∀ gid ∈ (recommend [⟨1, 2⟩]
      [⟨1, "Math", "medium", 15, 50, 4, 100, "A"⟩,
       ⟨2, "Science", "hard", 20, 70, 5, 80, "B"⟩] 6).1,
      gid ∉ playedIds [⟨1, 2⟩]) ∧
    (recommend [⟨1, 2⟩]
      [⟨1, "Math", "medium", 15, 50, 4, 100, "A"⟩,
       ⟨2, "Science", "hard", 20, 70, 5, 80, "B"⟩] 6).1.length =
      min 6 (unplayedGames [⟨1, 2⟩]
        [⟨1, "Math", "medium", 15, 50, 4, 100, "A"⟩,
         ⟨2, "Science", "hard", 20, 70, 5, 80, "B"⟩]).length ∧
    (recommend [⟨1, 2⟩]
      [⟨1, "Math", "medium", 15, 50, 4, 100, "A"⟩,
       ⟨2, "Science", "hard", 20, 70, 5, 80, "B"⟩] 6).1.Perm
      ((unplayedGames [⟨1, 2⟩]
        [⟨1, "Math", "medium", 15, 50, 4, 100, "A"⟩,
         ⟨2, "Science", "hard", 20, 70, 5, 80, "B"⟩]).map (fun g => g.id)) := by
  have h := recommend_excludes_played [⟨1, 2⟩]
    [⟨1, "Math", "medium", 15, 50, 4, 100, "A"⟩,
     ⟨2, "Science", "hard", 20, 70, 5, 80, "B"⟩] 6 (by decide)
  exact ⟨⟨by decide, by decide⟩, h.1, h.2.1, h.2.2 (by decide)⟩

/-- Counterexample to C1 as stated: with a single-game pool whose only game
was already played, the cold-start fallback returns that played id. -/
theorem recommend_excludes_played_cex :
    (recommend [⟨1, 5⟩] [⟨1, "Math", "medium", 15, 50, 4, 100, "A"⟩] 1).1 = [1] ∧
    (1 : ℤ) ∈ playedIds [⟨1, 5⟩] := by
  exact ⟨by decide, by decide⟩

end PlayStudy

namespace PlayStudy

/-- Truncating and projecting scores out of a score-sorted entry list keeps
the descending order. -/
theorem sorted_take_map_score (recs : List RecEntry) (limit : ℕ) :
    List.Sorted (fun a b : ℝ => b ≤ a)
      (((List.insertionSort scoreGe recs).take limit).map (fun r => r.2.1)) := by
  have hs : List.Sorted scoreGe (List.insertionSort scoreGe recs) :=
    List.sorted_insertionSort scoreGe recs
  have ht : List.Sorted scoreGe ((List.insertionSort scoreGe recs).take limit) :=
    List.Pairwise.sublist (List.take_sublist limit _) hs
  exact List.Pairwise.map _ (fun a b h => h) ht

/-- Insertion sort by score is stable: for every score value, the equal-score
entries of the sorted list are exactly the equal-score entries of the input,
in the input's order. -/
theorem insertionSort_score_stable (recs : List RecEntry) (s : ℝ) :
    (List.insertionSort scoreGe recs).filter (fun r => decide (r.2.1 = s)) =
      recs.filter (fun r => decide (r.2.1 = s)) := by
  have hall : ∀ r ∈ recs.filter (fun r : RecEntry => decide (r.2.1 = s)), r.2.1 = s := by
    intro r hr
    simpa using (List.mem_filter.mp hr).2
  have hpair : List.Pairwise scoreGe (recs.filter (fun r => decide (r.2.1 = s))) := by
    apply List.pairwise_of_forall_mem_list
    intro x hx y hy
    show y.2.1 ≤ x.2.1
    rw [hall x hx, hall y hy]
  have hsub : (recs.filter (fun r => decide (r.2.1 = s))).Sublist
      (List.insertionSort scoreGe recs) :=
    List.sublist_insertionSort hpair (List.filter_sublist recs)
  have hsub2 : (recs.filter (fun r => decide (r.2.1 = s))).Sublist
      ((List.insertionSort scoreGe recs).filter (fun r => decide (r.2.1 = s))) := by
    have h := List.Sublist.filter (fun r : RecEntry => decide (r.2.1 = s)) hsub
    rwa [List.filter_eq_self.mpr (fun a ha => decide_eq_true (hall a ha))] at h
  have hlen : ((List.insertionSort scoreGe recs).filter
      (fun r => decide (r.2.1 = s))).length =
      (recs.filter (fun r => decide (r.2.1 = s))).length :=
    ((List.perm_insertionSort scoreGe recs).filter _).length_eq
  exact (hsub2.eq_of_length hlen.symm).symm

/-- Claim C4 (amended): on the similarity path the returned scores are sorted
descending, the output ids are the `limit`-truncation of the score-sorted
candidate list, and that sort is stable — for every score value the
equal-score entries keep their candidate (pool) order — so ties keep pool
order rather than being broken by ascending item_id. -/
theorem similarity_output_sorted (ph : List UserPlayHistory)
    (games : List GameFeature) (limit : ℕ)
    (hcond : ¬(ph = [] ∨ games.length < 2))
    (hfav : ¬(favoriteIndices ph games = [])) :
    List.Sorted (fun a b : ℝ => b ≤ a) (recommend ph games limit).2.1 ∧
    (recommend ph games limit).1 =
      ((List.insertionSort scoreGe (similarityCandidates ph games)).take limit).map
        (fun r => r.1) ∧
    (∀ s : ℝ, (List.insertionSort scoreGe (similarityCandidates ph games)).filter
        (fun r => decide (r.2.1 = s)) =
      (similarityCandidates ph games).filter (fun r => decide (r.2.1 = s))) := by
  refine ⟨?_, ?_, fun s => insertionSort_score_stable (similarityCandidates ph games) s⟩
  · unfold recommend
    rw [if_neg hcond]
    simp only [hfav, ite_false]
    exact sorted_take_map_score _ _
  · rw [recommend_similarity_eq ph games limit hcond hfav]

/-- Witness for the amended C4: a two-game pool with game 1 played twice. -/
theorem similarity_output_sorted_witness :
    (¬(([⟨1, 2⟩] : List UserPlayHistory) = [] ∨
        ([⟨1, "Math", "medium", 15, 50, 4, 100, "A"⟩,
          ⟨2, "Science", "hard", 20, 70, 5, 80, "B"⟩] : List GameFeature).length < 2) ∧
      ¬(favoriteIndices [⟨1, 2⟩]
          [⟨1, "Math", "medium", 15, 50, 4, 100, "A"⟩,
           ⟨2, "Science", "hard", 20, 70, 5, 80, "B"⟩] = [])) ∧
    List.Sorted (fun a b : ℝ => b ≤ a)
      (recommend [⟨1, 2⟩]
        [⟨1, "Math", "medium", 15, 50, 4, 100, "A"⟩,
         ⟨2, "Science", "hard", 20, 70, 5, 80, "B"⟩] 6).2.1 ∧
    (∀ s : ℝ, (List.insertionSort scoreGe (similarityCandidates [⟨1, 2⟩]
        [⟨1, "Math", "medium", 15, 50, 4, 100, "A"⟩,
         ⟨2, "Science", "hard", 20, 70, 5, 80, "B"⟩])).filter
        (fun r => decide (r.2.1 = s)) =
      (similarityCandidates [⟨1, 2⟩]
        [⟨1, "Math", "medium", 15, 50, 4, 100, "A"⟩,
         ⟨2, "Science", "hard", 20, 70, 5, 80, "B"⟩]).filter
        (fun r => decide (r.2.1 = s))) := by
  have h := similarity_output_sorted [⟨1, 2⟩]
    [⟨1, "Math", "medium", 15, 50, 4, 100, "A"⟩,
     ⟨2, "Science", "hard", 20, 70, 5, 80, "B"⟩] 6 (by decide) (by decide)
  exact ⟨⟨by decide, by decide⟩, h.1, h.2.2⟩

end PlayStudy

namespace PlayStudy

/-- Sorting a two-entry list whose entries share one score keeps their order
(the sort is stable). -/
theorem insertionSort_pair_same_score (a b : ℤ) (s : ℝ) (e1 e2 : String) :
    List.insertionSort scoreGe [(a, s, e1), (b, s, e2)] = [(a, s, e1), (b, s, e2)] := by
  have h : scoreGe (a, s, e1) (b, s, e2) := le_refl s
  simp [List.insertionSort, List.orderedInsert, if_pos h]

/-- Counterexample to C4 as stated: two candidates with identical features
(ids 5 and 3, pool order 5 before 3) get equal similarity scores, and the
output keeps pool order [5, 3] instead of the claimed ascending item_id
tie-break [3, 5]. -/
theorem similarity_tie_cex :
    (recommend [⟨1, 2⟩]
      [⟨1, "Math", "medium", 15, 50, 4, 100, "Fav"⟩,
       ⟨5, "Science", "hard", 20, 70, 4, 80, "B"⟩,
       ⟨3, "Science", "hard", 20, 70, 4, 80, "C"⟩] 6).1 = [5, 3] ∧
    (recommend [⟨1, 2⟩]
      [⟨1, "Math", "medium", 15, 50, 4, 100, "Fav"⟩,
       ⟨5, "Science", "hard", 20, 70, 4, 80, "B"⟩,
       ⟨3, "Science", "hard", 20, 70, 4, 80, "C"⟩] 6).2.1.getD 0 0 =
    (recommend [⟨1, 2⟩]
      [⟨1, "Math", "medium", 15, 50, 4, 100, "Fav"⟩,
       ⟨5, "Science", "hard", 20, 70, 4, 80, "B"⟩,
       ⟨3, "Science", "hard", 20, 70, 4, 80, "C"⟩] 6).2.1.getD 1 0 := by
  suffices h : ∃ s e1 e2, recommend [⟨1, 2⟩]
      [⟨1, "Math", "medium", 15, 50, 4, 100, "Fav"⟩,
       ⟨5, "Science", "hard", 20, 70, 4, 80, "B"⟩,
       ⟨3, "Science", "hard", 20, 70, 4, 80, "C"⟩] 6 = ([5, 3], [s, s], [e1, e2]) by
    obtain ⟨s, e1, e2, h⟩ := h
    rw [h]
    exact ⟨rfl, rfl⟩
  unfold recommend
  rw [if_neg (by decide)]
  have hfav : favoriteIndices [⟨1, 2⟩]
      [⟨1, "Math", "medium", 15, 50, 4, 100, "Fav"⟩,
       ⟨5, "Science", "hard", 20, 70, 4, 80, "B"⟩,
       ⟨3, "Science", "hard", 20, 70, 4, 80, "C"⟩] = [0] := by decide
  simp only [hfav]
  rw [if_neg (by decide : ¬(([0] : List ℕ) = []))]
  simp only [create_feature_vectors, standardize]
  rw [show List.map (rawFeatures (uniqueCategories
      [⟨1, "Math", "medium", 15, 50, 4, 100, "Fav"⟩,
       ⟨5, "Science", "hard", 20, 70, 4, 80, "B"⟩,
       ⟨3, "Science", "hard", 20, 70, 4, 80, "C"⟩]))
      [⟨1, "Math", "medium", 15, 50, 4, 100, "Fav"⟩,
       ⟨5, "Science", "hard", 20, 70, 4, 80, "B"⟩,
       ⟨3, "Science", "hard", 20, 70, 4, 80, "C"⟩] =
    ([[2, 15, 50, 4, 100, 0], [3, 20, 70, 4, 80, 1], [3, 20, 70, 4, 80, 1]] : List (List ℚ))
    from by decide]
  simp only [List.map_cons, List.map_nil, List.headI, List.getD_cons_zero,
    List.zip_cons_cons, List.zip_nil_right, List.filter_cons, List.filter_nil,
    decide_eq_true_eq, playedIds, List.mem_cons, List.mem_singleton,
    List.not_mem_nil]
  simp only [show ((5 : ℤ) = 1) = False from by simp, show ((3 : ℤ) = 1) = False from by simp,
    not_or, not_true, not_false_eq_true, or_false, false_or, if_true, if_false,
    ite_true, ite_false]
  simp only [List.map_cons, List.map_nil]
  rw [insertionSort_pair_same_score]
  rw [List.take_of_length_le (by simp)]
  simp only [List.map_cons, List.map_nil]
  exact ⟨_, _, _, rfl⟩

end PlayStudy
